import Mathlib

/-!
Verification of the edopro-replay-parser core against its specification.

The definitions below are a shallow embedding of the C++ sources
(`src/main.cpp`, `src/parser.cpp`, `src/decompress.cpp`,
`src/print_names.cpp`, `src/replay_data.hpp`). Machine integers are
modelled as `Nat` with explicit `% 2^w` where 32-bit wraparound matters;
byte buffers are `List Nat`; fallible paths return `Except`/`Option`.
External collaborators (the LZMA decoder, the ygopen message encoder,
the board frame) are modelled as oracles: explicit sequences of step
results or abstract state-transition functions, exactly as wide as the
interface the core consumes.
-/

/-- Little-endian 32-bit read at offset `p` of a byte buffer, as done by
`read<uint32_t>` (`read.inl`): `memcpy` of four bytes. Out-of-range bytes
default to 0 (the embedding only relies on in-range reads). -/
def u32at (b : List Nat) (p : Nat) : Nat :=
  b.getD p 0 + 256 * b.getD (p + 1) 0 + 65536 * b.getD (p + 2) 0 +
    16777216 * b.getD (p + 3) 0

/-- Little-endian 64-bit read at offset `p`, as done by `read<uint64_t>`. -/
def u64at (b : List Nat) (p : Nat) : Nat :=
  u32at b p + 4294967296 * u32at b (p + 4)

/-- Error outcomes of the `main.cpp` extraction path, one constructor per
distinct diagnostic line. -/
inductive MainErr where
  | tooSmall
  | wrongMagic
  | versionTooNew
  | handTest
  | readFailed
  | sizeMismatch
  | yrpTooSmall
  | yrpSizeMismatch
  deriving DecidableEq, Repr

/-- The `REPLAY_YRPX` magic (`replay_data.hpp`). -/
def REPLAY_YRPX : Nat := 0x58707279

/-- The `REPLAY_YRP1` magic (`replay_data.hpp`). -/
def REPLAY_YRP1 : Nat := 0x31707279

/-- Header byte count chosen in `read_replay_contents` and the yrp branch of
`main`: `sizeof(ExtendedReplayHeader)` = 72 when `REPLAY_EXTENDED_HEADER`
(0x200) is set, else `sizeof(ReplayHeader)` = 32. (`ReplayHeader` in
`replay_data.hpp` is six `uint32_t` plus `uint8_t props[8]` = 32 bytes;
the extended struct appends a `uint64_t` and a `uint64_t[4]` = 72 bytes,
every member naturally aligned, no padding.) -/
def header_bytes (flags : Nat) : Nat :=
  if flags &&& 0x200 ≠ 0 then 72 else 32

/-- Embedding of `read_header` (`main.cpp`). Decodes `type` at offset 0 and
`flags` at offset 8 from the header bytes; rejects a wrong magic; when the
extended-header flag is set also decodes `header_version` (at offset 32,
right after the 32-byte base struct) and rejects versions above
`ExtendedReplayHeader::latest_header_version` = 1. Returns the decoded
`flags` word on success. -/
def read_header (bytes : List Nat) (magic : Nat) : Except MainErr Nat :=
  let t := u32at bytes 0
  if t ≠ magic then .error .wrongMagic
  else
    let flags := u32at bytes 8
    if flags &&& 0x200 ≠ 0 then
      let hv := u64at bytes 32
      if hv > 1 then .error .versionTooNew else .ok flags
    else .ok flags

/-- Embedding of the file-size gate plus outer header parse in `main`
(`main.cpp` lines 225-240): the file must hold at least
`sizeof(ExtendedReplayHeader)` = 72 bytes before `read_header` is even
attempted, regardless of which flags the header carries. -/
def main_header_gate (filesize : Nat) (bytes : List Nat) : Except MainErr Nat :=
  if filesize < 72 then .error .tooSmall
  else read_header bytes REPLAY_YRPX

/-- Embedding of the uncompressed branch of `read_replay_contents`
(`main.cpp` lines 108-112): when `REPLAY_COMPRESSED` is clear the bytes are
used verbatim and the only check performed is `header.base.size != filesize`,
comparing against the size of the whole file. Returns the byte count of the
vector handed back (`pth_buf` is allocated with `filesize` elements). -/
def uncompressed_check (hsize filesize : Nat) : Except MainErr Nat :=
  if hsize ≠ filesize then .error .sizeMismatch else .ok filesize

/-- A 44-byte buffer whose first 32 bytes form a valid yrpX base header
with all flags clear: magic bytes `79 72 70 58` followed by zeroes. Its 44
bytes are the availability the claim says suffices for a flag-clear
header. -/
def yrpx44 : List Nat := [0x79, 0x72, 0x70, 0x58] ++ List.replicate 40 0

/-- C6 (counterexample). The claim says a replay whose `EXTENDED_HEADER`
flag is clear needs only 44 bytes to parse. The code instead demands
`sizeof(ExtendedReplayHeader)` = 72 bytes up front: a valid flag-clear yrpX
header with 44 bytes available is rejected with the too-small error. -/
theorem header_min_size_counterexample :
    main_header_gate 44 yrpx44 = .error .tooSmall ∧
    u32at yrpx44 8 &&& 0x200 = 0 ∧ 44 ≥ 44 := by
  refine ⟨rfl, ?_, le_refl 44⟩
  decide

/-- C6 (amended). Parsing the outer header requires at least 72 bytes
(`sizeof(ExtendedReplayHeader)`) regardless of the `EXTENDED_HEADER` flag:
the too-small error fires exactly when the file holds fewer than 72 bytes. -/
theorem header_too_small_iff_lt_72 (filesize : Nat) (bytes : List Nat) :
    main_header_gate filesize bytes = .error .tooSmall ↔ filesize < 72 := by
  by_cases hf : filesize < 72
  · simp [main_header_gate, hf]
  · have hne : read_header bytes REPLAY_YRPX ≠ .error .tooSmall := by
      unfold read_header
      dsimp only
      split_ifs <;> simp
    simp [main_header_gate, hf, hne]

/-- C2 (code/claim divergence). A 104-byte uncompressed outer replay with a
flag-clear header (`sizeof(ReplayHeader)` = 32 bytes) and `header.size = 72`
has a payload of exactly `104 - 32 = 72 = header.size` bytes, which the
claim says must be accepted; the code compares `header.size` with the whole
file size (104) and fails with the size-mismatch error. -/
theorem uncompressed_size_check_uses_file_size :
    header_bytes 0 = 32 ∧
    104 - header_bytes 0 = 72 ∧
    uncompressed_check 72 104 = .error .sizeMismatch := by
  exact ⟨rfl, rfl, rfl⟩

/-- Status codes returned by `lzma_code`, restricted to the values the
decompression loop in `decompress.cpp` distinguishes. -/
inductive LzStat where
  | ok
  | streamEnd
  | dataError
  | otherError
  deriving DecidableEq, Repr

/-- One iteration of the body loop of `decompress` (`decompress.cpp` lines
66-80) as seen through the external decoder: the stream's end-of-file flag
after the `is.read`, the status `lzma_code` returned, and how many output
bytes that call appended to `total_out`. -/
structure Round where
  eof : Bool
  stat : LzStat
  out : Nat
  deriving DecidableEq, Repr

/-- Errors of `decompress` (`decompress.cpp`), one constructor per
diagnostic sub-reason. `stuck` is a model artifact marking an oracle that
ran out of rounds (the C loop would keep calling the decoder). -/
inductive DErr where
  | headerDecodeFail
  | unexpectedHeaderOut
  | streamFail
  | sizeMismatch
  | stuck
  deriving DecidableEq, Repr

/-- The body loop of `decompress` (`decompress.cpp` lines 66-80), threading
`total_out`. A round first updates `total_out`, then: break on
`LZMA_STREAM_END` or on stream end-of-file; continue on `LZMA_OK`; on
`LZMA_DATA_ERROR` break exactly when `total_out == header.size`; any other
failure aborts with the stream-decoding error. Returns the final
`total_out` on break. -/
def body_loop (hsize : Nat) : List Round → Nat → Except DErr Nat
  | [], _ => .error .stuck
  | r :: rs, t =>
    let t' := t + r.out
    if r.stat = .streamEnd ∨ r.eof then .ok t'
    else if r.stat = .ok then body_loop hsize rs t'
    else if r.stat = .dataError ∧ t' = hsize then .ok t'
    else .error .streamFail

/-- The tail of `decompress` (`decompress.cpp` lines 81-83): after the body
loop breaks, the accumulated `total_out` must equal `max_size` or the call
fails with the total-size mismatch error. -/
def decompress_body (hsize max_out : Nat) (rs : List Round) : Except DErr Nat :=
  match body_loop hsize rs 0 with
  | .error e => .error e
  | .ok t => if t ≠ max_out then .error .sizeMismatch else .ok t

/-- Acceptance condition transcribed from the specification's words for C3:
accept when the decoder signals clean end (or the input is exhausted) with
total output equal to the requested maximum, or when the decoder signals a
data error precisely when the total output equals `header.size`. -/
def claim_accept (hsize max_out : Nat) : List Round → Nat → Bool
  | [], _ => false
  | r :: rs, t =>
    let t' := t + r.out
    if r.stat = .streamEnd ∨ r.eof then decide (t' = max_out)
    else if r.stat = .ok then claim_accept hsize max_out rs t'
    else decide (r.stat = .dataError ∧ t' = hsize)

/-- Success recogniser on the decompressor's result type. -/
def dOk (e : Except DErr Nat) : Bool :=
  match e with
  | .ok _ => true
  | .error _ => false

/-- The body loop followed by the final total-size check, started from an
arbitrary accumulated `total_out` (used to state the loop invariant). -/
def checked_body (hsize max_out : Nat) (rs : List Round) (t : Nat) :
    Except DErr Nat :=
  match body_loop hsize rs t with
  | .error e => .error e
  | .ok u => if u ≠ max_out then .error .sizeMismatch else .ok u

/-- Helper: success of the checked body loop coincides with the spec-side
acceptance condition, from any starting `total_out`, whenever the requested
output size equals `header.size` (as at every call site). -/
theorem checked_body_accept (hsize : Nat) (rs : List Round) : ∀ t : Nat,
    dOk (checked_body hsize hsize rs t) = claim_accept hsize hsize rs t := by
  induction rs with
  | nil => intro t; rfl
  | cons r rs ih =>
    intro t
    by_cases h1 : r.stat = .streamEnd ∨ r.eof
    · simp only [checked_body, body_loop, claim_accept, h1, if_true]
      by_cases h2 : t + r.out = hsize <;> simp [dOk, h2]
    · by_cases h3 : r.stat = .ok
      · have heof : r.eof = false := by
          rcases Bool.eq_false_or_eq_true r.eof with h | h
          · exact absurd (Or.inr h) h1
          · exact h
        have hb : body_loop hsize (r :: rs) t = body_loop hsize rs (t + r.out) := by
          simp [body_loop, h1, h3, heof]
        have hc : claim_accept hsize hsize (r :: rs) t
            = claim_accept hsize hsize rs (t + r.out) := by
          simp [claim_accept, h1, h3, heof]
        rw [checked_body, hb, hc, ← checked_body, ih]
      · by_cases h4 : r.stat = .dataError ∧ t + r.out = hsize
        · simp [checked_body, body_loop, claim_accept, dOk, h1, h3, h4, h4.2]
        · simp [checked_body, body_loop, claim_accept, dOk, h1, h3, h4]

/-- C3. With the output budget the call sites pass (`max_size` is always the
header's `size` field, `main.cpp` lines 103 and 313), a compressed payload
decompresses successfully exactly under the claim's condition: clean end or
input exhaustion with `total_out` equal to the requested maximum, or a data
error arriving precisely when `total_out` equals `header.size`. -/
theorem decompress_accept_iff (hsize max_out : Nat) (rs : List Round)
    (hcall : max_out = hsize) :
    (dOk (decompress_body hsize max_out rs) = true
      ↔ claim_accept hsize max_out rs 0 = true) := by
  subst hcall
  have h : decompress_body max_out max_out rs = checked_body max_out max_out rs 0 := rfl
  rw [h, checked_body_accept]

/-- C3 (witness). A concrete two-round run: one productive `LZMA_OK` round
then a clean `LZMA_STREAM_END` with the totals matching. -/
theorem decompress_accept_iff_witness :
    (dOk (decompress_body 7 7 [⟨false, .ok, 3⟩, ⟨false, .streamEnd, 4⟩]) = true
      ↔ claim_accept 7 7 [⟨false, .ok, 3⟩, ⟨false, .streamEnd, 4⟩] 0 = true) :=
  decompress_accept_iff 7 7 [⟨false, .ok, 3⟩, ⟨false, .streamEnd, 4⟩] rfl

/-- The synthesized 13-byte ".lzma" prefix built by `decompress`
(`decompress.cpp` lines 39-46): a zero-initialized `std::array<uint8_t,13>`,
whose first five bytes are `memcpy`ed from `header.props` and whose bytes
5..8 are written by the loop `ret_header[i+5] = (header.size >> (8*i)) & 0xFF`
for `i = 0..3`; bytes 9..12 keep their zero initialization. -/
def fake_header (props : Fin 8 → Nat) (hsize : Nat) : List Nat :=
  [props 0, props 1, props 2, props 3, props 4,
   (hsize >>> 0) &&& 255, (hsize >>> 8) &&& 255,
   (hsize >>> 16) &&& 255, (hsize >>> 24) &&& 255,
   0, 0, 0, 0]

/-- Spec-side 8-byte little-endian encoding of a 64-bit value. -/
def u64le (n : Nat) : List Nat :=
  [(n >>> 0) &&& 255, (n >>> 8) &&& 255, (n >>> 16) &&& 255,
   (n >>> 24) &&& 255, (n >>> 32) &&& 255, (n >>> 40) &&& 255,
   (n >>> 48) &&& 255, (n >>> 56) &&& 255]

/-- One call of `lzma_code` during the prefix-feed phase of `decompress`
(`decompress.cpp` lines 59-61): its status, how many of the remaining
prefix bytes it consumed, and how many output bytes it produced. -/
structure HStep where
  stat : LzStat
  consume : Nat
  produce : Nat
  deriving DecidableEq, Repr

/-- The prefix-feed loop of `decompress` (`decompress.cpp` lines 59-61):
`while(stream.avail_in != 0) if(lzma_code(...) != LZMA_OK) fail`. Returns
the pair (remaining input, `total_out`) at loop exit; the loop only ever
exits with zero remaining input. Recursion is on the decoder-step oracle. -/
def feed_header : List HStep → Nat → Nat → Except DErr (Nat × Nat)
  | _, 0, t => .ok (0, t)
  | [], _ + 1, _ => .error .stuck
  | s :: rest, a + 1, t =>
    if s.stat = .ok then feed_header rest (a + 1 - s.consume) (t + s.produce)
    else .error .headerDecodeFail

/-- The whole prefix phase (`decompress.cpp` lines 59-63): feed the 13-byte
synthetic prefix, then require `stream.total_out == 0`, failing with the
unexpected-output error otherwise. Returns the phase's `total_out`. -/
def header_phase (steps : List HStep) : Except DErr Nat :=
  match feed_header steps 13 0 with
  | .error e => .error e
  | .ok (_, t) => if t ≠ 0 then .error .unexpectedHeaderOut else .ok t

/-- Helper: the prefix-feed loop only succeeds with all input consumed. -/
theorem feed_header_consumes_all (steps : List HStep) : ∀ a t a' t',
    feed_header steps a t = .ok (a', t') → a' = 0 := by
  induction steps with
  | nil =>
    intro a t a' t' h
    match a, h with
    | 0, h => exact (Prod.mk.injEq _ _ _ _ ▸ Except.ok.inj h).1.symm ▸ rfl
  | cons s rest ih =>
    intro a t a' t' h
    match a, h with
    | 0, h => exact ((Prod.mk.injEq _ _ _ _).mp (Except.ok.inj h)).1.symm
    | a + 1, h =>
      rw [feed_header] at h
      split at h
      · exact ih _ _ _ _ h
      · cases h

/-- C4. The synthesized 13-byte LZMA prefix has byte 0 equal to `props[0]`,
bytes 1..4 equal to `props[1..5]`, and bytes 5..12 equal to the 8-byte
little-endian encoding of `header.size` (a `uint32_t`, hence below `2^32`);
the prefix-feed phase, when it succeeds, has consumed the prefix in full
while producing zero output bytes, and any prefix-phase output makes the
phase fail with the unexpected-output error. -/
theorem fake_header_prefix_contract (props : Fin 8 → Nat) (hsize : Nat)
    (h32 : hsize < 4294967296) :
    fake_header props hsize
      = [props 0, props 1, props 2, props 3, props 4] ++ u64le hsize ∧
    (∀ steps t, header_phase steps = .ok t → t = 0) ∧
    (∀ steps a t, feed_header steps 13 0 = .ok (a, t) →
      a = 0 ∧ (t ≠ 0 → header_phase steps = .error .unexpectedHeaderOut)) := by
  refine ⟨?_, ?_, ?_⟩
  · have h1 : hsize >>> 32 = 0 := by
      rw [Nat.shiftRight_eq_div_pow]
      exact Nat.div_eq_of_lt h32
    have h2 : hsize >>> 40 = 0 := by
      rw [Nat.shiftRight_eq_div_pow]
      exact Nat.div_eq_of_lt (lt_trans h32 (by norm_num))
    have h3 : hsize >>> 48 = 0 := by
      rw [Nat.shiftRight_eq_div_pow]
      exact Nat.div_eq_of_lt (lt_trans h32 (by norm_num))
    have h4 : hsize >>> 56 = 0 := by
      rw [Nat.shiftRight_eq_div_pow]
      exact Nat.div_eq_of_lt (lt_trans h32 (by norm_num))
    simp [fake_header, u64le, h1, h2, h3, h4]
  · intro steps t h
    unfold header_phase at h
    split at h
    · cases h
    · split at h
      · cases h
      · simp_all
  · intro steps a t h
    refine ⟨feed_header_consumes_all steps 13 0 a t h, fun ht => ?_⟩
    unfold header_phase
    rw [h]
    simp [ht]

/-- C4 (witness). A concrete instantiation: constant props, a small size,
and a two-step oracle that consumes the whole prefix without output. -/
theorem fake_header_prefix_contract_witness :
    fake_header (fun _ => 93) 258
      = [93, 93, 93, 93, 93] ++ u64le 258 ∧
    (∀ steps t, header_phase steps = .ok t → t = 0) ∧
    (∀ steps a t, feed_header steps 13 0 = .ok (a, t) →
      a = 0 ∧ (t ≠ 0 → header_phase steps = .error .unexpectedHeaderOut)) :=
  fake_header_prefix_contract (fun _ => 93) 258 (by norm_num)

/-- States of `EncodeOneResult` (the external ygopen encoder's report),
as dispatched by `analyze` (`parser.cpp` lines 239-254). -/
inductive EncodeState where
  | ok
  | swallowed
  | unknown
  deriving DecidableEq, Repr

/-- One reply of the external `encode_one` call: its state and the byte
count it reports having read. The structured message produced in the `OK`
case is threaded through `ReplayContext::parse`, which is modelled
separately (see `processQueries`); `analyze` itself only inspects the
state and `bytes_read`. -/
structure EncodeResult where
  state : EncodeState
  bytesRead : Nat
  deriving DecidableEq, Repr

/-- A processed (non-sentinel) frame of the outer message stream, as
recorded for the loop invariant: the frame's `msg_type`, its `msg_size`
(a `uint32_t`), and the `bytes_read` the encoder reported for it. -/
structure Frame where
  msgType : Nat
  msgSize : Nat
  bytesRead : Nat
  deriving DecidableEq, Repr

/-- Result of a successful `analyze` run: the processed frames in order,
the sentinel's region as (offset, length) when `msg_type` 231 was seen
(`old_replay_mode_buffer`/`old_replay_mode_size`), and the final cursor
offset. -/
structure ARes where
  trace : List Frame
  orm : Option (Nat × Nat)
  finalPos : Nat
  deriving DecidableEq, Repr

/-- Error outcomes of `analyze` (`parser.cpp`), one per diagnostic;
`stuck` is the model artifact for an exhausted encoder oracle. -/
inductive AErr where
  | shortMsg
  | unknownMsg (n : Nat)
  | lenMismatch
  | stuck
  deriving DecidableEq, Repr

/-- Outcome of the per-frame preamble of `analyze` (`parser.cpp` lines
210-233): the remaining-bytes check, the framing read, the in-place byte
swap, and the sentinel test, shared by every loop iteration. -/
inductive HeadRes where
  | err (e : AErr)
  | sentinel (off len fp : Nat)
  | proceed (msgType msgSize : Nat) (buf' : List Nat)
  deriving DecidableEq, Repr

/-- The per-frame preamble of `analyze`: require at least 5 remaining bytes
(`sentry < buffer + sizeof(uint8_t) + sizeof(uint32_t)`); read `msg_type`
(1 byte at the cursor) and `msg_size` (little-endian `uint32_t` after it);
advance the cursor 4 bytes and rewrite the byte now under it with
`msg_type` (the documented swap); on `msg_type` 231 expose the sentinel
region starting one byte further (`orm_buffer = buffer + 1`) with length
`msg_size` (`orm_size = msg_size`). -/
def analyzeHead (size : Nat) (buf : List Nat) (pos : Nat) : HeadRes :=
  if size < pos + 5 then .err .shortMsg
  else
    let msgType := buf.getD pos 0
    let msgSize := u32at buf (pos + 1)
    let buf' := buf.set (pos + 4) msgType
    if msgType = 231 then .sentinel (pos + 5) msgSize (pos + 4)
    else .proceed msgType msgSize buf'

/-- The frame walk of `analyze` (`parser.cpp` lines 204-261), with the
external encoder abstracted as the oracle list (one entry per `encode_one`
call; an empty oracle on a frame that needs one is the `stuck` artifact).
After the preamble: fail on `UNKNOWN`; fail with the length-mismatch error
when `bytes_read` differs from the 32-bit sum `msg_size + 1`; otherwise
record the frame and keep walking until the cursor lands exactly on the
end of the payload (`do ... while(sentry != buffer)`). -/
def analyzeLoop (size : Nat) : List EncodeResult → List Nat → Nat → List Frame →
    Except AErr ARes
  | [], buf, pos, tr =>
    match analyzeHead size buf pos with
    | .err e => .error e
    | .sentinel off len fp => .ok ⟨tr, some (off, len), fp⟩
    | .proceed _ _ _ => .error .stuck
  | r :: rest, buf, pos, tr =>
    match analyzeHead size buf pos with
    | .err e => .error e
    | .sentinel off len fp => .ok ⟨tr, some (off, len), fp⟩
    | .proceed msgType msgSize buf' =>
      let newPos := pos + 4 + r.bytesRead
      match r.state with
      | .unknown => .error (.unknownMsg msgType)
      | _ =>
        if r.bytesRead ≠ (msgSize + 1) % 4294967296 then .error .lenMismatch
        else if newPos = size then
          .ok ⟨tr ++ [⟨msgType, msgSize, r.bytesRead⟩], none, newPos⟩
        else analyzeLoop size rest buf' newPos (tr ++ [⟨msgType, msgSize, r.bytesRead⟩])

/-- Entry point of the walk: `analyze(exe, buffer, size)` starts at offset
0 with an empty frame trace. -/
def analyzeRun (buf : List Nat) (size : Nat) (oracle : List EncodeResult) :
    Except AErr ARes :=
  analyzeLoop size oracle buf 0 []

/-- Helper: loop invariant of the frame walk. Starting from a trace whose
frames all satisfy the 32-bit length equation, a successful walk yields a
trace that still satisfies it, and ends either on the sentinel or with the
cursor exactly on the end of the payload. -/
theorem analyzeLoop_ok_inv (size : Nat) : ∀ (oracle : List EncodeResult)
    (buf : List Nat) (pos : Nat) (tr : List Frame) (res : ARes),
    (∀ f ∈ tr, f.bytesRead = (f.msgSize + 1) % 4294967296) →
    analyzeLoop size oracle buf pos tr = .ok res →
    (∀ f ∈ res.trace, f.bytesRead = (f.msgSize + 1) % 4294967296) ∧
    (res.orm.isSome ∨ res.finalPos = size) := by
  intro oracle
  induction oracle with
  | nil =>
    intro buf pos tr res htr h
    rw [analyzeLoop] at h
    cases hh : analyzeHead size buf pos with
    | err e => rw [hh] at h; cases h
    | sentinel off len fp =>
      rw [hh] at h
      have hres := Except.ok.inj h
      subst hres
      exact ⟨htr, Or.inl rfl⟩
    | proceed mt ms buf' => rw [hh] at h; cases h
  | cons r rest ih =>
    intro buf pos tr res htr h
    rw [analyzeLoop] at h
    cases hh : analyzeHead size buf pos with
    | err e => rw [hh] at h; cases h
    | sentinel off len fp =>
      rw [hh] at h
      have hres := Except.ok.inj h
      subst hres
      exact ⟨htr, Or.inl rfl⟩
    | proceed mt ms buf' =>
      rw [hh] at h
      dsimp only at h
      cases hst : r.state with
      | unknown => rw [hst] at h; dsimp only at h; cases h
      | ok =>
        rw [hst] at h
        dsimp only at h
        split at h
        · cases h
        · rename_i hlen
          have hbr : r.bytesRead = (ms + 1) % 4294967296 := Decidable.not_not.mp hlen
          have htr' : ∀ f ∈ tr ++ [(⟨mt, ms, r.bytesRead⟩ : Frame)],
              f.bytesRead = (f.msgSize + 1) % 4294967296 := by
            intro f hf
            rcases List.mem_append.mp hf with hmem | hmem
            · exact htr f hmem
            · rcases List.mem_singleton.mp hmem with rfl
              exact hbr
          split at h
          · rename_i heqpos
            have hres := Except.ok.inj h
            subst hres
            exact ⟨htr', Or.inr heqpos⟩
          · exact ih _ _ _ _ htr' h
      | swallowed =>
        rw [hst] at h
        dsimp only at h
        split at h
        · cases h
        · rename_i hlen
          have hbr : r.bytesRead = (ms + 1) % 4294967296 := Decidable.not_not.mp hlen
          have htr' : ∀ f ∈ tr ++ [(⟨mt, ms, r.bytesRead⟩ : Frame)],
              f.bytesRead = (f.msgSize + 1) % 4294967296 := by
            intro f hf
            rcases List.mem_append.mp hf with hmem | hmem
            · exact htr f hmem
            · rcases List.mem_singleton.mp hmem with rfl
              exact hbr
          split at h
          · rename_i heqpos
            have hres := Except.ok.inj h
            subst hres
            exact ⟨htr', Or.inr heqpos⟩
          · exact ih _ _ _ _ htr' h

/-- C5 (counterexample). The claim's length equation `bytes_read ==
msg_size + 1` is computed by the code in 32-bit arithmetic
(`msg_size + 1U`), so a frame with `msg_size = 0xFFFFFFFF` wraps to 0 and
a reported `bytes_read` of 0 passes the check: the run below succeeds yet
its first processed frame has `bytes_read = 0 ≠ msg_size + 1`. -/
theorem frame_length_wrap_counterexample :
    analyzeRun [1, 255, 255, 255, 255, 2, 0, 0, 0, 10, 11] 11
        [⟨.swallowed, 0⟩, ⟨.swallowed, 3⟩]
      = .ok ⟨[⟨1, 4294967295, 0⟩, ⟨1, 2, 3⟩], none, 11⟩ ∧
    (0 : Nat) ≠ 4294967295 + 1 := by
  exact ⟨rfl, by norm_num⟩

/-- C5 (amended). For every non-sentinel frame processed in a successful
walk, the reported `bytes_read` equals `(msg_size + 1) mod 2^32` (the
32-bit sum the code computes), and a successful walk ends only on the
sentinel or with the cursor exactly on the end of the payload; moreover any
frame whose report violates that equation makes the walk fail with the
frame-length-mismatch error on the spot. -/
theorem frame_length_checked :
    (∀ (buf : List Nat) (size : Nat) (oracle : List EncodeResult) (res : ARes),
      analyzeRun buf size oracle = .ok res →
      (∀ f ∈ res.trace, f.bytesRead = (f.msgSize + 1) % 4294967296) ∧
      (res.orm.isSome ∨ res.finalPos = size)) ∧
    (∀ (size : Nat) (buf : List Nat) (pos : Nat) (r : EncodeResult)
      (rest : List EncodeResult) (tr : List Frame) (mt ms : Nat) (buf' : List Nat),
      analyzeHead size buf pos = .proceed mt ms buf' →
      r.state ≠ .unknown →
      r.bytesRead ≠ (ms + 1) % 4294967296 →
      analyzeLoop size (r :: rest) buf pos tr = .error .lenMismatch) := by
  constructor
  · intro buf size oracle res h
    exact analyzeLoop_ok_inv size oracle buf 0 [] res (by intro f hf; cases hf) h
  · intro size buf pos r rest tr mt ms buf' hhead hstate hlen
    rw [analyzeLoop, hhead]
    dsimp only
    cases hst : r.state with
    | unknown => exact absurd hst hstate
    | ok => simp [hlen]
    | swallowed => simp [hlen]

/-- C5 (witness). A one-frame payload processed to exact exhaustion: the
theorem applied to the concrete run certifies its trace and exit mode. -/
theorem frame_length_checked_witness :
    (∀ f ∈ (⟨[⟨1, 2, 3⟩], none, 7⟩ : ARes).trace,
        f.bytesRead = (f.msgSize + 1) % 4294967296) ∧
    ((⟨[⟨1, 2, 3⟩], none, 7⟩ : ARes).orm.isSome ∨
      (⟨[⟨1, 2, 3⟩], none, 7⟩ : ARes).finalPos = 7) :=
  frame_length_checked.1 [1, 2, 0, 0, 0, 10, 11] 7 [⟨.swallowed, 3⟩] _ rfl

/-- C1 (counterexample). A sentinel frame with `msg_type = 231` and
`msg_size = 6`: the code exposes an inner region of length `msg_size` = 6
(`orm_size = msg_size`, `parser.cpp` line 231), not `msg_size - 1` = 5 as
the claim states. -/
theorem sentinel_region_length_counterexample :
    analyzeRun [231, 6, 0, 0, 0, 1, 2, 3, 4, 5, 6] 11 []
      = .ok ⟨[], some (5, 6), 4⟩ ∧ (6 : Nat) ≠ 6 - 1 := by
  exact ⟨rfl, by norm_num⟩

/-- C1 (amended). When the walk meets a frame whose `msg_type` byte is 231
(with the 5 framing bytes available), it stops at once and exposes the
inner-replay region starting at `pos + 5` — the byte immediately after the
rewritten byte at `pos + 4`, which then holds `msg_type` — with length
exactly `msg_size` (the `uint32_t` at `pos + 1`). -/
theorem sentinel_region_exposed (size : Nat) (buf : List Nat) (pos : Nat)
    (oracle : List EncodeResult) (tr : List Frame)
    (hrem : pos + 5 ≤ size) (htype : buf.getD pos 0 = 231)
    (hin : pos + 4 < buf.length) :
    analyzeLoop size oracle buf pos tr
      = .ok ⟨tr, some (pos + 5, u32at buf (pos + 1)), pos + 4⟩ ∧
    (buf.set (pos + 4) (buf.getD pos 0)).getD (pos + 4) 0 = 231 := by
  have hnlt : ¬ size < pos + 5 := by omega
  have hh : analyzeHead size buf pos
      = .sentinel (pos + 5) (u32at buf (pos + 1)) (pos + 4) := by
    unfold analyzeHead
    rw [if_neg hnlt]
    dsimp only
    rw [htype]
    simp
  constructor
  · cases oracle with
    | nil => rw [analyzeLoop, hh]
    | cons r rest => rw [analyzeLoop, hh]
  · rw [htype]
    simp [List.getD_eq_getElem?_getD, List.getElem?_set_self', hin]

/-- C1 (witness). The amended statement applied to the concrete sentinel
frame of the counterexample's buffer. -/
theorem sentinel_region_exposed_witness :
    analyzeLoop 11 [] [231, 6, 0, 0, 0, 1, 2, 3, 4, 5, 6] 0 []
      = .ok ⟨[], some (5, 6), 4⟩ ∧
    (([231, 6, 0, 0, 0, 1, 2, 3, 4, 5, 6] : List Nat).set 4
        (([231, 6, 0, 0, 0, 1, 2, 3, 4, 5, 6] : List Nat).getD 0 0)).getD 4 0 = 231 :=
  sentinel_region_exposed 11 [231, 6, 0, 0, 0, 1, 2, 3, 4, 5, 6] 0 [] []
    (by norm_num) rfl (by norm_num)

/-- The code-unit scan of `buffer_to_utf16` (`print_names.cpp` lines 22-39)
as a counted loop: the C loop runs `p` over `0, 2, 4, ...` while
`p <= p0 + max_byte_count`, i.e. `max_byte_count / 2 + 1` iterations at
most (one more unit than fits in `max_byte_count` bytes). Each iteration
assembles a UTF-16LE unit from two bytes and stops before appending on
NUL, LF, or CR. -/
def utf16_scan (data : List Nat) : Nat → Nat → List Nat
  | 0, _ => []
  | k + 1, p =>
    let unit := data.getD p 0 + 256 * data.getD (p + 1) 0
    if unit = 0 ∨ unit = 10 ∨ unit = 13 then []
    else unit :: utf16_scan data k (p + 2)

/-- Embedding of `buffer_to_utf16` (`print_names.cpp`): an empty result for
`max_byte_count = 0`, otherwise the scan starting at byte 0. `data` models
the memory starting at the block's first byte; the loop's `p <= tg` bound
lets it read the two bytes just past `max_byte_count`. -/
def buffer_to_utf16 (data : List Nat) (max_byte_count : Nat) : List Nat :=
  if max_byte_count = 0 then []
  else utf16_scan data (max_byte_count / 2 + 1) 0

/-- Forty bytes encoding twenty UTF-16LE units, none a terminator: the
letter A repeated twenty times. -/
def blockA : List Nat := (List.replicate 20 [65, 0]).flatten

/-- C7 (code/claim divergence). Two memory contents that agree on all 40
bytes of the name block and differ only in the two bytes after it drive
`buffer_to_utf16(_, 40)` to different results, and the extracted name holds
21 code units: the loop bound `p <= tg` reads one UTF-16 unit past
`max_byte_count`, so bytes outside the block influence the name and the
20-unit cap is exceeded. -/
theorem name_scan_reads_past_block :
    (blockA ++ [66, 0]).take 40 = (blockA ++ [67, 0]).take 40 ∧
    buffer_to_utf16 (blockA ++ [66, 0]) 40 ≠ buffer_to_utf16 (blockA ++ [67, 0]) 40 ∧
    (buffer_to_utf16 (blockA ++ [66, 0]) 40).length = 21 := by
  refine ⟨by decide, by decide, by decide⟩

/-- A duel place: controller, location, sequence, and sub-sequence
(`YGOpen::Proto::Duel::Place` as consumed by `ReplayContext`). -/
structure Place where
  con : Nat
  loc : Nat
  seq : Nat
  oseq : Nat
  deriving DecidableEq, Repr

/-- The clearable payload of a card query: one `Option` per field of the
X-macro table in `ReplayContext::parse` (`parser.cpp` lines 105-135),
`none` meaning the field is absent from the payload. The source fields
`alias`, `attribute` and `def` are spelled `alias_`, `attribute_` and
`def_` because Lean reserves those words. -/
structure QueryData where
  owner : Option Nat
  is_public : Option Nat
  is_hidden : Option Nat
  position : Option Nat
  cover : Option Nat
  status : Option Nat
  code : Option Nat
  alias_ : Option Nat
  type : Option Nat
  level : Option Nat
  xyz_rank : Option Nat
  attribute_ : Option Nat
  race : Option Nat
  base_atk : Option Nat
  atk : Option Nat
  base_def : Option Nat
  def_ : Option Nat
  pend_l_scale : Option Nat
  pend_r_scale : Option Nat
  link_rate : Option Nat
  link_arrow : Option Nat
  counters : Option Nat
  equipped : Option Nat
  relations : Option Nat
  deriving DecidableEq, Repr

/-- The cache-hit bitmask `parse_query` returns, one flag per clearable
field (the `QueryCacheHit` bits tested by the X-macro). -/
structure CacheHits where
  owner : Bool
  is_public : Bool
  is_hidden : Bool
  position : Bool
  cover : Bool
  status : Bool
  code : Bool
  alias_ : Bool
  type : Bool
  level : Bool
  xyz_rank : Bool
  attribute_ : Bool
  race : Bool
  base_atk : Bool
  atk : Bool
  base_def : Bool
  def_ : Bool
  pend_l_scale : Bool
  pend_r_scale : Bool
  link_rate : Bool
  link_arrow : Bool
  counters : Bool
  equipped : Bool
  relations : Bool
  deriving DecidableEq, Repr

/-- A card query inside a message: its place and its data payload. -/
structure Query where
  place : Place
  data : QueryData
  deriving DecidableEq, Repr

/-- The X-macro body of `ReplayContext::parse` (`parser.cpp` lines
105-135): for each field, `if(hits & QueryCacheHit::X) data->clear_x()`.
Each conditional touches exactly one distinct field, so the sequential
clears are written as one simultaneous record update. -/
def clearQueryData (h : CacheHits) (d : QueryData) : QueryData where
  owner := if h.owner then none else d.owner
  is_public := if h.is_public then none else d.is_public
  is_hidden := if h.is_hidden then none else d.is_hidden
  position := if h.position then none else d.position
  cover := if h.cover then none else d.cover
  status := if h.status then none else d.status
  code := if h.code then none else d.code
  alias_ := if h.alias_ then none else d.alias_
  type := if h.type then none else d.type
  level := if h.level then none else d.level
  xyz_rank := if h.xyz_rank then none else d.xyz_rank
  attribute_ := if h.attribute_ then none else d.attribute_
  race := if h.race then none else d.race
  base_atk := if h.base_atk then none else d.base_atk
  atk := if h.atk then none else d.atk
  base_def := if h.base_def then none else d.base_def
  def_ := if h.def_ then none else d.def_
  pend_l_scale := if h.pend_l_scale then none else d.pend_l_scale
  pend_r_scale := if h.pend_r_scale then none else d.pend_r_scale
  link_rate := if h.link_rate then none else d.link_rate
  link_arrow := if h.link_arrow then none else d.link_arrow
  counters := if h.counters then none else d.counters
  equipped := if h.equipped then none else d.equipped
  relations := if h.relations then none else d.relations

/-- Spec-side statement of the per-field contract of C8: every field whose
cache-hit bit is set is absent from the new payload; every other field is
preserved from the old payload. -/
def clearedCorrectly (h : CacheHits) (old new : QueryData) : Prop :=
  new.owner = (if h.owner then none else old.owner) ∧
  new.is_public = (if h.is_public then none else old.is_public) ∧
  new.is_hidden = (if h.is_hidden then none else old.is_hidden) ∧
  new.position = (if h.position then none else old.position) ∧
  new.cover = (if h.cover then none else old.cover) ∧
  new.status = (if h.status then none else old.status) ∧
  new.code = (if h.code then none else old.code) ∧
  new.alias_ = (if h.alias_ then none else old.alias_) ∧
  new.type = (if h.type then none else old.type) ∧
  new.level = (if h.level then none else old.level) ∧
  new.xyz_rank = (if h.xyz_rank then none else old.xyz_rank) ∧
  new.attribute_ = (if h.attribute_ then none else old.attribute_) ∧
  new.race = (if h.race then none else old.race) ∧
  new.base_atk = (if h.base_atk then none else old.base_atk) ∧
  new.atk = (if h.atk then none else old.atk) ∧
  new.base_def = (if h.base_def then none else old.base_def) ∧
  new.def_ = (if h.def_ then none else old.def_) ∧
  new.pend_l_scale = (if h.pend_l_scale then none else old.pend_l_scale) ∧
  new.pend_r_scale = (if h.pend_r_scale then none else old.pend_r_scale) ∧
  new.link_rate = (if h.link_rate then none else old.link_rate) ∧
  new.link_arrow = (if h.link_arrow then none else old.link_arrow) ∧
  new.counters = (if h.counters then none else old.counters) ∧
  new.equipped = (if h.equipped then none else old.equipped) ∧
  new.relations = (if h.relations then none else old.relations)

/-- Helper: the embedded clearer satisfies the per-field contract. -/
theorem clearQueryData_cleared (h : CacheHits) (d : QueryData) :
    clearedCorrectly h d (clearQueryData h d) :=
  ⟨rfl, rfl, rfl, rfl, rfl, rfl, rfl, rfl, rfl, rfl, rfl, rfl,
   rfl, rfl, rfl, rfl, rfl, rfl, rfl, rfl, rfl, rfl, rfl, rfl⟩

/-- The query-processing loop of `ReplayContext::parse` (`parser.cpp`
lines 92-137), abstracted over the board state `S`, the external
`frame().has_card` test, and the external `parse_query<true>` call (which
may advance the board state and returns the cache-hit mask). A query whose
place has no card is erased without consulting `parse_query` (the drop
happens before suppression); a kept query has its hit fields cleared and
the state advanced. -/
def processQueries {S : Type} (hasCard : S → Place → Bool)
    (pq : S → Query → S × CacheHits) : S → List Query → List Query
  | _, [] => []
  | s, q :: qs =>
    if hasCard s q.place then
      ⟨q.place, clearQueryData (pq s q).2 q.data⟩ ::
        processQueries hasCard pq (pq s q).1 qs
    else processQueries hasCard pq s qs

/-- C8. Every query emitted by the processing loop descends from an input
query whose place had a card in the frame state current when it was
reached, with its payload equal to the input payload with exactly the
cache-hit fields cleared and all other fields preserved; and a query whose
place has no card is dropped without invoking the query parser at all (its
processing changes neither the emitted list nor the threaded state), i.e.
the drop happens before cache-hit suppression. -/
theorem emitted_query_characterization {S : Type} (hasCard : S → Place → Bool)
    (pq : S → Query → S × CacheHits) :
    (∀ (s : S) (qs : List Query) (q' : Query),
      q' ∈ processQueries hasCard pq s qs →
      ∃ q s2, q ∈ qs ∧ hasCard s2 q.place = true ∧ q'.place = q.place ∧
        q'.data = clearQueryData (pq s2 q).2 q.data ∧
        clearedCorrectly (pq s2 q).2 q.data q'.data) ∧
    (∀ (s : S) (q : Query) (qs : List Query), hasCard s q.place = false →
      processQueries hasCard pq s (q :: qs) = processQueries hasCard pq s qs) := by
  constructor
  · intro s qs
    induction qs generalizing s with
    | nil => intro q' h; cases h
    | cons q0 qs ih =>
      intro q' h
      rw [processQueries] at h
      split at h
      · rename_i hcard
        rcases List.mem_cons.mp h with rfl | hmem
        · exact ⟨q0, s, List.mem_cons_self q0 qs, hcard, rfl, rfl,
            clearQueryData_cleared _ _⟩
        · rcases ih _ q' hmem with ⟨q, s2, hq, hcd, hpl, hdt, hcc⟩
          exact ⟨q, s2, List.mem_cons_of_mem _ hq, hcd, hpl, hdt, hcc⟩
      · rcases ih _ q' h with ⟨q, s2, hq, hcd, hpl, hdt, hcc⟩
        exact ⟨q, s2, List.mem_cons_of_mem _ hq, hcd, hpl, hdt, hcc⟩
  · intro s q qs hcard
    rw [processQueries]
    simp [hcard]

/-- A concrete has-card test for the witness: only controller 0 holds cards. -/
def hasCard0 (s : Nat) (p : Place) : Bool :=
  s = s && decide (p.con = 0)

/-- A concrete cache-hit mask for the witness: only `owner` hit. -/
def hitsOwnerOnly : CacheHits :=
  ⟨true, false, false, false, false, false, false, false, false, false,
   false, false, false, false, false, false, false, false, false, false,
   false, false, false, false⟩

/-- A concrete query parser for the witness: bumps the state, reports
`hitsOwnerOnly`. -/
def parseQuery0 (s : Nat) (_ : Query) : Nat × CacheHits :=
  (s + 1, hitsOwnerOnly)

/-- A fully populated query payload for the witness. -/
def qdFull : QueryData :=
  ⟨some 1, some 1, some 1, some 1, some 1, some 1, some 1, some 1,
   some 1, some 1, some 1, some 1, some 1, some 1, some 1, some 1,
   some 1, some 1, some 1, some 1, some 1, some 1, some 1, some 1⟩

/-- The witness input query, at a place with a card. -/
def qIn : Query := ⟨⟨0, 1, 2, 0⟩, qdFull⟩

/-- The witness output query: `owner` cleared, all else preserved. -/
def qOut : Query := ⟨⟨0, 1, 2, 0⟩, clearQueryData hitsOwnerOnly qdFull⟩

/-- C8 (witness). The characterization applied to a concrete single-query
message processed from state 0. -/
theorem emitted_query_characterization_witness :
    ∃ q s2, q ∈ [qIn] ∧ hasCard0 s2 q.place = true ∧ qOut.place = q.place ∧
      qOut.data = clearQueryData (parseQuery0 s2 q).2 q.data ∧
      clearedCorrectly (parseQuery0 s2 q).2 q.data qOut.data :=
  (emitted_query_characterization hasCard0 parseQuery0).1 0 [qIn] qOut (by decide)

/-- `ReplayContext::xyz_left` (`parser.cpp` lines 72-76): `left_[left] = from`
inserts or overwrites the mapping for the destination place. The `std::map`
is modelled extensionally as a partial lookup function. -/
def xyz_left (m : Place → Option Place) (dest src : Place) :
    Place → Option Place :=
  fun p => if p = dest then some src else m p

/-- `ReplayContext::get_xyz_left` (`parser.cpp` lines 50-53):
`left_.find(left)->second`, an unchecked lookup. The `none` branch of the
embedding corresponds to dereferencing `end()` — the undefined behaviour
the C++ would exhibit when no mapping was recorded. -/
def get_xyz_left (m : Place → Option Place) (p : Place) : Option Place :=
  m p

/-- A sequence of `xyz_left` writes applied in call order to the initially
empty map (`left_()` in the constructor). -/
def applyXyzLefts (ws : List (Place × Place)) : Place → Option Place :=
  ws.foldl (fun m e => xyz_left m e.1 e.2) (fun _ => none)

/-- The source recorded by the most recent write to `p` in the write
sequence, if any (later list entries are later calls and win). -/
def lastWrite : List (Place × Place) → Place → Option Place
  | [], _ => none
  | e :: t, p =>
    match lastWrite t p with
    | some s => some s
    | none => if e.1 = p then some e.2 else none

/-- Helper: a fold of writes looks up to the most recent write when there
is one, and to the starting map otherwise. -/
theorem applyXyzLefts_eq_lastWrite (ws : List (Place × Place)) :
    ∀ (m : Place → Option Place) (p : Place),
    (ws.foldl (fun m e => xyz_left m e.1 e.2) m) p
      = match lastWrite ws p with
        | some s => some s
        | none => m p := by
  induction ws with
  | nil => intro m p; rfl
  | cons e t ih =>
    intro m p
    rw [List.foldl_cons, ih]
    cases hl : lastWrite t p with
    | some s => rw [lastWrite, hl]
    | none =>
      rw [lastWrite, hl]
      dsimp only
      by_cases hp : e.1 = p
      · subst hp
        simp [xyz_left]
      · rw [if_neg hp]
        have hp' : ¬ p = e.1 := fun h => hp h.symm
        simp [xyz_left, hp']

/-- Helper: a place that was written to has a most recent write. -/
theorem lastWrite_isSome_of_mem (p s0 : Place) : ∀ ws : List (Place × Place),
    (p, s0) ∈ ws → (lastWrite ws p).isSome := by
  intro ws
  induction ws with
  | nil => intro h; cases h
  | cons e t ih =>
    intro h
    rw [lastWrite]
    rcases List.mem_cons.mp h with rfl | hmem
    · cases hl : lastWrite t p <;> simp [hl]
    · have := ih hmem
      cases hl : lastWrite t p with
      | some s => simp
      | none => rw [hl] at this; cases this

/-- C10. After any sequence of `xyz_left` writes, `get_xyz_left p` returns
exactly the source of the most recent write to `p`; under the precondition
that some `xyz_left(p, _)` was recorded, that lookup is `some` — the
embedding's lookup-failure branch (the C++ `find(...) == end()` undefined
dereference) is unreachable. -/
theorem get_xyz_left_last_write (ws : List (Place × Place)) (p s0 : Place)
    (hmem : (p, s0) ∈ ws) :
    get_xyz_left (applyXyzLefts ws) p = lastWrite ws p ∧
    (lastWrite ws p).isSome ∧
    get_xyz_left (applyXyzLefts ws) p ≠ none := by
  have heq : get_xyz_left (applyXyzLefts ws) p = lastWrite ws p := by
    rw [get_xyz_left, applyXyzLefts, applyXyzLefts_eq_lastWrite]
    cases hl : lastWrite ws p <;> rfl
  have hs := lastWrite_isSome_of_mem p s0 ws hmem
  refine ⟨heq, hs, ?_⟩
  rw [heq]
  intro hnone
  rw [hnone] at hs
  cases hs

/-- C10 (witness). Two successive writes to the same place: the lookup
returns the later source and cannot fail. -/
theorem get_xyz_left_last_write_witness :
    get_xyz_left (applyXyzLefts [(⟨0, 4, 0, 0⟩, ⟨1, 4, 2, 0⟩), (⟨0, 4, 0, 0⟩, ⟨0, 2, 5, 0⟩)])
        ⟨0, 4, 0, 0⟩
      = lastWrite [(⟨0, 4, 0, 0⟩, ⟨1, 4, 2, 0⟩), (⟨0, 4, 0, 0⟩, ⟨0, 2, 5, 0⟩)] ⟨0, 4, 0, 0⟩ ∧
    (lastWrite [(⟨0, 4, 0, 0⟩, ⟨1, 4, 2, 0⟩), (⟨0, 4, 0, 0⟩, ⟨0, 2, 5, 0⟩)] ⟨0, 4, 0, 0⟩).isSome ∧
    get_xyz_left (applyXyzLefts [(⟨0, 4, 0, 0⟩, ⟨1, 4, 2, 0⟩), (⟨0, 4, 0, 0⟩, ⟨0, 2, 5, 0⟩)])
        ⟨0, 4, 0, 0⟩ ≠ none :=
  get_xyz_left_last_write _ ⟨0, 4, 0, 0⟩ ⟨1, 4, 2, 0⟩ (by decide)

/-- The response-reading loop of `main` (`main.cpp` lines 403-417): while
the cursor has not reached the sentry, read a `u8` length, then copy that
many payload bytes and advance. `len == 0` is forbidden (`assert(size != 0)`;
with it the C loop would not advance) and is modelled as failure, as is a
length overrunning the region (the C code would read out of bounds). -/
def read_responses : List Nat → Option (List (List Nat))
  | [] => some []
  | len :: rest =>
    if len = 0 then none
    else if rest.length < len then none
    else
      match read_responses (rest.drop len) with
      | none => none
      | some rs => some (rest.take len :: rs)
  termination_by l => l.length
  decreasing_by
    simp only [List.length_drop, List.length_cons]
    omega

/-- The on-disk encoding of a response sequence: each response framed as
`u8 len` followed by its `len` payload bytes, frames laid end to end. -/
def encodeFrames (frames : List (List Nat)) : List Nat :=
  (frames.map fun p => p.length :: p).flatten

/-- C9. When the region after the inner preamble and decks is exactly tiled
by frames `u8 len, len bytes` with every `len ≥ 1` (and each length
representable in the `u8`), the reader terminates with the sentry check
`sentry != cursor` landing exactly, and yields all responses in order. -/
theorem responses_tiling_roundtrip (frames : List (List Nat))
    (hfr : ∀ p ∈ frames, 1 ≤ p.length ∧ p.length ≤ 255) :
    read_responses (encodeFrames frames) = some frames := by
  induction frames with
  | nil =>
    rw [encodeFrames]
    simp [read_responses]
  | cons p t ih =>
    have hp := hfr p (List.mem_cons_self p t)
    have henc : encodeFrames (p :: t) = p.length :: (p ++ encodeFrames t) := by
      rw [encodeFrames, List.map_cons, List.flatten_cons]
      rfl
    rw [henc, read_responses.eq_def]
    dsimp only
    have h0 : ¬ p.length = 0 := by omega
    have hlt : ¬ (p ++ encodeFrames t).length < p.length := by
      rw [List.length_append]
      omega
    have hdrop : (p ++ encodeFrames t).drop p.length = encodeFrames t :=
      List.drop_left p (encodeFrames t)
    have htake : (p ++ encodeFrames t).take p.length = p :=
      List.take_left p (encodeFrames t)
    rw [if_neg h0, if_neg hlt, hdrop, htake,
      ih (fun q hq => hfr q (List.mem_cons_of_mem p hq))]

/-- C9 (witness). A region tiled by the two frames `[2, 7, 8]` and `[1, 9]`
is read back as the responses `[7, 8]` and `[9]`. -/
theorem responses_tiling_roundtrip_witness :
    read_responses (encodeFrames [[7, 8], [9]]) = some [[7, 8], [9]] :=
  responses_tiling_roundtrip [[7, 8], [9]] (by decide)
